import Mathlib

/-!
# Zen Tasks — shallow embedding of the core state model (`src/main.ts`)

This file embeds the task-list core of the repository in Lean 4: the data
model (`Task`, `AppState`), the persistence/migration layer
(`loadFromStorage`, `saveToStorage`), the mutating commands (`addTask`,
`toggleTask`, `deleteTask`, `restoreTask`, `permanentDeleteTask`,
`emptyTrash`, `switchStatusFilter`, `toggleTag`) and the query pipeline of
`renderTasks` / `updateStats` (status filter, tag filter, sort).

Modelling conventions:
* JS `number` timestamps (ms since epoch) are `Int`.
* `string | null` fields are `Option String`; an absent (`undefined`)
  optional field is also `none` where the code only distinguishes
  truthiness (`?? null` collapses `undefined` into `null`).
* `Date.now()` and the timezone are an explicit `Clock` argument: `nowMs`
  is the UTC instant, `tzShiftMs` the offset added to UTC ms to obtain
  local time.  `new Date(x).toISOString().split('T')[0]` is `toISODate x`
  (a UTC calendar date); `new Date(x).toDateString() === new Date(y).toDateString()`
  holds iff `x` and `y` fall on the same local calendar day, i.e.
  `localDay c x = localDay c y`.
* JS `Array.prototype.sort` with a comparator `cmp` is a stable sort by
  the boolean preorder `le a b ↔ cmp a b ≤ 0`; we use Mathlib's
  `List.insertionSort`, which is a stable sort.
-/

namespace ZenTasks

/-- `statusFilter` values: `'all' | 'today' | 'active' | 'completed' | 'deleted'`. -/
inductive Filter where
  | all
  | today
  | active
  | completed
  | deleted
deriving DecidableEq, Repr

/-- Tag values: `'important' | 'someday'`. -/
inductive Tag where
  | important
  | someday
deriving DecidableEq, Repr

/-- `category` values: `'today' | 'important' | 'someday'` (a vestigial field). -/
inductive Category where
  | today
  | important
  | someday
deriving DecidableEq, Repr

/-- The `Task` interface of `main.ts`. `dueDate` is `YYYY-MM-DD` or null;
`deletedAt` is present only for tasks in the recycle bin. -/
structure Task where
  id : String
  text : String
  completed : Bool
  createdAt : Int
  category : Category
  important : Bool
  dueDate : Option String
  deletedAt : Option Int := none
deriving DecidableEq, Repr

/-- The `AppState` interface of `main.ts`. -/
structure AppState where
  tasks : List Task
  deletedTasks : List Task
  statusFilter : Filter
  tags : List Tag
  version : Option Nat := none
deriving DecidableEq, Repr

/-- `const DATA_VERSION = 2`. -/
def DATA_VERSION : Nat := 2

/-! ## Calendar dates

`toISODate ms` computes the `YYYY-MM-DD` prefix of
`new Date(ms).toISOString()`, i.e. the UTC calendar date of the instant
`ms` (milliseconds since the Unix epoch), using the standard
days-to-civil-date conversion. -/

/-- Civil date `(year, month, day)` from a count of days since 1970-01-01
(proleptic Gregorian, floor-division form of the usual algorithm). -/
def civilFromDays (days : Int) : Int × Nat × Nat :=
  let z := days + 719468
  let era : Int := z.fdiv 146097
  let doe : Nat := (z - era * 146097).toNat
  let yoe : Nat := (doe - doe / 1460 + doe / 36524 - doe / 146096) / 365
  let y : Int := (yoe : Int) + era * 400
  let doy : Nat := doe - (365 * yoe + yoe / 4 - yoe / 100)
  let mp : Nat := (5 * doy + 2) / 153
  let d : Nat := doy - (153 * mp + 2) / 5 + 1
  let m : Nat := if mp < 10 then mp + 3 else mp - 9
  (if m ≤ 2 then y + 1 else y, m, d)

/-- Zero-pad a number to two digits. -/
def pad2 (n : Nat) : String :=
  if n < 10 then "0" ++ toString n else toString n

/-- Zero-pad a number to four digits. -/
def pad4 (n : Nat) : String :=
  if n < 10 then "000" ++ toString n
  else if n < 100 then "00" ++ toString n
  else if n < 1000 then "0" ++ toString n
  else toString n

/-- `new Date(ms).toISOString().split('T')[0]`: the UTC calendar date
string of the instant `ms`. -/
def toISODate (ms : Int) : String :=
  let days := ms.fdiv 86400000
  let c := civilFromDays days
  pad4 c.1.toNat ++ "-" ++ pad2 c.2.1 ++ "-" ++ pad2 c.2.2

/-- The ambient clock: the current instant `nowMs` (`Date.now()`) and the
local-timezone shift (`localTime = nowMs + tzShiftMs`). -/
structure Clock where
  nowMs : Int
  tzShiftMs : Int
deriving DecidableEq, Repr

/-- The local calendar-day index of instant `ms` under clock `c`:
`new Date(a).toDateString() === new Date(b).toDateString()` iff
`localDay c a = localDay c b`. -/
def localDay (c : Clock) (ms : Int) : Int :=
  (ms + c.tzShiftMs).fdiv 86400000

/-- JS truthiness of a `string | null` value: `null`/absent and `""` are falsy. -/
def jsTruthyStr : Option String → Bool
  | none => false
  | some s => s ≠ ""

/-! ## Store: `loadFromStorage` / `saveToStorage` -/

/-- A raw persisted task as parsed from JSON: `important` and `dueDate`
may be absent/null (`task.important ?? false`, `task.dueDate ?? null`). -/
structure RawTask where
  id : String
  text : String
  completed : Bool
  createdAt : Int
  category : Category
  important : Option Bool
  dueDate : Option String
  deletedAt : Option Int := none
deriving DecidableEq, Repr

/-- A raw persisted tag string: besides the two live tags, legacy records
may contain `'all'`, which load filters out. -/
inductive RawTag where
  | important
  | someday
  | all
deriving DecidableEq, Repr

/-- The surviving tag of a raw tag, if any (`parsed.tags.filter(t => t !== 'all')`,
whose survivors are the two live tag values). -/
def RawTag.toTag? : RawTag → Option Tag
  | .important => some Tag.important
  | .someday => some Tag.someday
  | .all => none

/-- The legacy `category` field mapped onto the tag axis
(`parsed.category === 'today' ? [] : [parsed.category]`). -/
def categoryTags : Category → List Tag
  | .today => []
  | .important => [Tag.important]
  | .someday => [Tag.someday]

/-- A parsed persisted record: every field may be absent. `filter` and
`category` are the legacy single-select fields. -/
structure RawRecord where
  tasks : Option (List RawTask) := none
  deletedTasks : Option (List RawTask) := none
  statusFilter : Option Filter := none
  filter : Option Filter := none
  tags : Option (List RawTag) := none
  category : Option Category := none
  version : Option Nat := none
deriving DecidableEq, Repr

/-- Field-level defaulting applied to every loaded task:
`{ ...task, important: task.important ?? false, dueDate: task.dueDate ?? null }`. -/
def normalizeTask (t : RawTask) : Task :=
  { id := t.id, text := t.text, completed := t.completed,
    createdAt := t.createdAt, category := t.category,
    important := t.important.getD false, dueDate := t.dueDate,
    deletedAt := t.deletedAt }

/-- The v1→v2 per-task migration (lines 46–55 of `main.ts`): if `dueDate`
is truthy and equals the UTC calendar date of `createdAt`, clear it. -/
def migrateTask (t : Task) : Task :=
  if jsTruthyStr t.dueDate then
    if t.dueDate == some (toISODate t.createdAt) then { t with dueDate := none }
    else t
  else t

/-- `parsed.version || 1` (note `0` is falsy in JS). -/
def jsVersion (r : RawRecord) : Nat :=
  match r.version with
  | none => 1
  | some v => if v = 0 then 1 else v

/-- The default state returned when the slot is absent or unparsable
(lines 99–105 of `main.ts`). -/
def defaultState : AppState :=
  { tasks := [], deletedTasks := [], statusFilter := Filter.all,
    tags := [], version := some DATA_VERSION }

/-- `loadFromStorage` (lines 27–106 of `main.ts`).  The argument is the
parse result of the storage slot: `none` models both an absent slot and
unparsable JSON (the `catch` path).  Normalizes legacy tasks, applies the
v1→v2 migration to `tasks` when the stored version is below 2, maps the
legacy `filter`/`category` fields onto `statusFilter`/`tags`, and stamps
the current version. -/
def loadFromStorage (input : Option RawRecord) : AppState :=
  match input with
  | none => defaultState
  | some parsed =>
    let currentVersion := jsVersion parsed
    let tasks : List Task :=
      match parsed.tasks with
      | none => []
      | some raw =>
        let ts := raw.map normalizeTask
        if currentVersion < 2 then ts.map migrateTask else ts
    let deletedTasks : List Task :=
      match parsed.deletedTasks with
      | none => []
      | some raw => raw.map normalizeTask
    let statusFilter : Filter :=
      match parsed.statusFilter, parsed.filter with
      | some f, _ => f
      | none, some f => f
      | none, none => Filter.all
    let tags : List Tag :=
      match parsed.tags, parsed.category with
      | some raw, _ => raw.filterMap RawTag.toTag?
      | none, some c => categoryTags c
      | none, none => []
    { tasks := tasks, deletedTasks := deletedTasks,
      statusFilter := statusFilter, tags := tags,
      version := some DATA_VERSION }

/-- `saveToStorage` (lines 109–115): the snapshot actually written is the
state re-stamped with the current version
(`JSON.stringify({ ...state, version: DATA_VERSION })`). -/
def saveToStorage (s : AppState) : AppState :=
  { s with version := some DATA_VERSION }

/-! ## TaskService commands -/

/-- JS `text.trim()`: strip leading and trailing whitespace. -/
def jsTrim (s : String) : String :=
  ⟨((s.data.dropWhile Char.isWhitespace).reverse.dropWhile Char.isWhitespace).reverse⟩

/-- `addTask(text, important, dueDate)` (lines 426–447): no-op when the
trimmed text is empty; otherwise prepends a fresh task.  `generateId()`
and `Date.now()` are the explicit arguments `newId` and `c.nowMs`. -/
def addTask (c : Clock) (newId : String) (text : String) (important : Bool)
    (dueDate : Option String) (s : AppState) : AppState :=
  if jsTrim text = "" then s
  else
    { s with tasks :=
        { id := newId, text := jsTrim text, completed := false,
          createdAt := c.nowMs, category := Category.today,
          important := important, dueDate := dueDate } :: s.tasks }

/-- Flip `completed` on the first task matching `id` (the code mutates
`tasks.find(...)`, i.e. the first match). -/
def toggleFirst (id : String) : List Task → List Task
  | [] => []
  | t :: ts =>
    if t.id == id then { t with completed := !t.completed } :: ts
    else t :: toggleFirst id ts

/-- `toggleTask(id)` (lines 502–510): no-op if `id` is not in `tasks`. -/
def toggleTask (id : String) (s : AppState) : AppState :=
  { s with tasks := toggleFirst id s.tasks }

/-- `deleteTask(id)` (lines 513–524): the first task matching `id` is
stamped `deletedAt = Date.now()` and moved to the front of
`deletedTasks`; every entry of `tasks` with that id is filtered out. -/
def deleteTask (c : Clock) (id : String) (s : AppState) : AppState :=
  match s.tasks.find? (fun t => t.id == id) with
  | none => s
  | some t =>
    { s with
      deletedTasks := { t with deletedAt := some c.nowMs } :: s.deletedTasks,
      tasks := s.tasks.filter (fun t => t.id != id) }

/-- `restoreTask(id)` (lines 527–537): the first trashed task matching
`id` loses `deletedAt` and moves to the front of `tasks`; every entry of
`deletedTasks` with that id is filtered out. -/
def restoreTask (id : String) (s : AppState) : AppState :=
  match s.deletedTasks.find? (fun t => t.id == id) with
  | none => s
  | some t =>
    { s with
      tasks := { t with deletedAt := none } :: s.tasks,
      deletedTasks := s.deletedTasks.filter (fun t => t.id != id) }

/-- `permanentDeleteTask(id)` (lines 540–545). -/
def permanentDeleteTask (id : String) (s : AppState) : AppState :=
  { s with deletedTasks := s.deletedTasks.filter (fun t => t.id != id) }

/-- `emptyTrash()` (lines 548–553). -/
def emptyTrash (s : AppState) : AppState :=
  { s with deletedTasks := [] }

/-- `switchStatusFilter(filter)` (lines 587–594). -/
def switchStatusFilter (f : Filter) (s : AppState) : AppState :=
  { s with statusFilter := f }

/-- `toggleTag(tag)` (lines 598–610): remove every occurrence if present,
else push (append) the tag. -/
def toggleTag (tag : Tag) (s : AppState) : AppState :=
  if s.tags.contains tag then
    { s with tags := s.tags.filter (fun t => t != tag) }
  else
    { s with tags := s.tags ++ [tag] }

/-! ## Queries: the `renderTasks` pipeline (lines 188–215) -/

/-- The `today` branch of the status predicate (lines 191–196):
due today — where "today" is the UTC date string from `toISOString` — or
(no due date and created on today's local calendar date, compared via
`toDateString`). -/
def todayPred (c : Clock) (t : Task) : Bool :=
  t.dueDate == some (toISODate c.nowMs) ||
    (t.dueDate == none && localDay c t.createdAt == localDay c c.nowMs)

/-- The status-filter callback of `renderTasks` (lines 188–199); `all`
(and the unreachable `deleted`, short-circuited before the filter) keep
everything. -/
def statusPred (c : Clock) (f : Filter) (t : Task) : Bool :=
  match f with
  | Filter.active => !t.completed
  | Filter.completed => t.completed
  | Filter.today => todayPred c t
  | _ => true

/-- The tag-filter callback of `renderTasks` (lines 203–207): a task
survives if it matches at least one selected tag; `important` matches
`task.important`, `someday` matches `task.dueDate !== null`. -/
def tagPred (tags : List Tag) (t : Task) : Bool :=
  (tags.contains Tag.important && t.important) ||
    (tags.contains Tag.someday && t.dueDate != none)

/-- The filtered (pre-sort) task list of `renderTasks` (lines 188–208):
status filter, then — only when `tags` is non-empty — the tag filter. -/
def renderFiltered (c : Clock) (s : AppState) : List Task :=
  let filtered := s.tasks.filter (statusPred c s.statusFilter)
  if s.tags.length > 0 then filtered.filter (tagPred s.tags) else filtered

/-- The sort comparator of `renderTasks` (lines 211–215) as a boolean
preorder: `taskLE a b ↔ cmp(a,b) ≤ 0` for the comparator that puts
incomplete before completed, then important before non-important, then
larger `createdAt` first. -/
def taskLE (a b : Task) : Bool :=
  if a.completed != b.completed then !a.completed
  else if a.important != b.important then a.important
  else b.createdAt ≤ a.createdAt

/-- The comparator as a binary relation: `taskOrder a b` iff the
comparator of lines 211–215 returns `≤ 0` on `(a, b)`. -/
def taskOrder : Task → Task → Prop := fun a b => taskLE a b = true

instance : DecidableRel taskOrder := fun a b => by
  unfold taskOrder
  infer_instance

instance : IsTotal Task taskOrder where
  total a b := by
    unfold taskOrder taskLE
    rcases a with ⟨_, _, ac, acr, _, ai, _, _⟩
    rcases b with ⟨_, _, bc, bcr, _, bi, _, _⟩
    simp only
    cases ac <;> cases bc <;> cases ai <;> cases bi <;> simp_all <;> omega

instance : IsTrans Task taskOrder where
  trans a b c hab hbc := by
    unfold taskOrder taskLE at *
    rcases a with ⟨_, _, ac, acr, _, ai, _, _⟩
    rcases b with ⟨_, _, bc, bcr, _, bi, _, _⟩
    rcases c with ⟨_, _, cc, ccr, _, ci, _, _⟩
    simp only at *
    cases ac <;> cases bc <;> cases cc <;> cases ai <;> cases bi <;> cases ci <;>
      simp_all <;> omega

/-- The visible task list of `renderTasks` for non-`deleted` filters:
the filtered list, stably sorted by the comparator. -/
def visibleTasks (c : Clock) (s : AppState) : List Task :=
  (renderFiltered c s).insertionSort taskOrder

/-! ## Queries: the `updateStats` pipeline (lines 359–416)

`updateStats` re-states the same filtering logic textually; it is
transcribed separately (from lines 383–401) so that the agreement of the
two code paths is a theorem, not a definition. -/

/-- The status-filter callback of `updateStats` (lines 383–392). -/
def statsStatusPred (c : Clock) (f : Filter) (t : Task) : Bool :=
  match f with
  | Filter.active => !t.completed
  | Filter.completed => t.completed
  | Filter.today =>
    t.dueDate == some (toISODate c.nowMs) ||
      (t.dueDate == none && localDay c t.createdAt == localDay c c.nowMs)
  | _ => true

/-- The tag-filter callback of `updateStats` (lines 395–400). -/
def statsTagPred (tags : List Tag) (t : Task) : Bool :=
  (tags.contains Tag.important && t.important) ||
    (tags.contains Tag.someday && t.dueDate != none)

/-- The filtered set that `updateStats` counts over (lines 383–401). -/
def statsFiltered (c : Clock) (s : AppState) : List Task :=
  let filtered := s.tasks.filter (statsStatusPred c s.statusFilter)
  if s.tags.length > 0 then filtered.filter (statsTagPred s.tags) else filtered

/-- `total` as displayed by `updateStats`: the trash size under the
`deleted` filter (lines 371–379), else the filtered count (line 403). -/
def statsTotal (c : Clock) (s : AppState) : Nat :=
  if s.statusFilter = Filter.deleted then s.deletedTasks.length
  else (statsFiltered c s).length

/-- `completed` as computed by `updateStats` (line 404). -/
def statsCompleted (c : Clock) (s : AppState) : Nat :=
  ((statsFiltered c s).filter (fun t => t.completed)).length

/-- `active` as computed by `updateStats` (line 405). -/
def statsActive (c : Clock) (s : AppState) : Nat :=
  statsTotal c s - statsCompleted c s

/-! ## Spec-side predicates (for refinement comparison) -/

/-- Modelled from the spec's words for the `today` filter, with *both*
comparisons taken from the local clock's current date: due date equal to
the local calendar date of now, or no due date and created on today's
local calendar day.  (To be compared against the code's `todayPred`.) -/
def todayPredSpec (c : Clock) (t : Task) : Bool :=
  t.dueDate == some (toISODate (c.nowMs + c.tzShiftMs)) ||
    (t.dueDate == none && localDay c t.createdAt == localDay c c.nowMs)

/-- The amended `today` membership condition: due date equal to the *UTC*
calendar date of the current instant (the code compares against
`toISOString`), or no due date and created on today's *local* calendar
day (the code compares via `toDateString`). -/
def todaySpecAmended (c : Clock) (t : Task) : Prop :=
  t.dueDate = some (toISODate c.nowMs) ∨
    (t.dueDate = none ∧ localDay c t.createdAt = localDay c c.nowMs)

/-! ## Command sequences and the disjointness invariant -/

/-- `newId` does not occur in either collection — `generateId()` is the
code's fresh-unique-id source. -/
def idFresh (newId : String) (s : AppState) : Prop :=
  (∀ t ∈ s.tasks, t.id ≠ newId) ∧ (∀ t ∈ s.deletedTasks, t.id ≠ newId)

/-- States reachable from the default initial state by any sequence of
the mutating commands, with `addTask` drawing a fresh unique id from
`generateId()`. -/
inductive Reachable : AppState → Prop where
  | init : Reachable defaultState
  | add {s : AppState} (c : Clock) (newId text : String) (imp : Bool)
      (due : Option String) :
      Reachable s → idFresh newId s → Reachable (addTask c newId text imp due s)
  | toggle {s : AppState} (id : String) : Reachable s → Reachable (toggleTask id s)
  | del {s : AppState} (c : Clock) (id : String) :
      Reachable s → Reachable (deleteTask c id s)
  | restore {s : AppState} (id : String) : Reachable s → Reachable (restoreTask id s)
  | purge {s : AppState} (id : String) :
      Reachable s → Reachable (permanentDeleteTask id s)
  | empty {s : AppState} : Reachable s → Reachable (emptyTrash s)

/-- The invariant: task ids are duplicate-free within each collection,
the two collections carry disjoint id sets, and `deletedAt` is absent on
active tasks and present on trashed tasks. -/
def Inv (s : AppState) : Prop :=
  (s.tasks.map Task.id).Nodup ∧
  (s.deletedTasks.map Task.id).Nodup ∧
  (∀ i, i ∈ s.tasks.map Task.id → i ∉ s.deletedTasks.map Task.id) ∧
  (∀ t ∈ s.tasks, t.deletedAt = none) ∧
  (∀ t ∈ s.deletedTasks, t.deletedAt ≠ none)

/-! ## Concrete instances used by the closed theorems below -/

/-- A reachable state: one task added then soft-deleted. -/
def C1WState : AppState :=
  deleteTask { nowMs := 1, tzShiftMs := 0 } "a"
    (addTask { nowMs := 0, tzShiftMs := 0 } "a" "hello" false none defaultState)

/-- A legacy raw task whose due date equals the UTC date of its creation
instant (`toISODate 0 = "1970-01-01"`). -/
def C2RawTask : RawTask :=
  { id := "t1", text := "x", completed := false, createdAt := 0,
    category := Category.today, important := some false,
    dueDate := some "1970-01-01" }

/-- A legacy record (no `version` field) whose recycle bin holds
`C2RawTask`. -/
def C2Record : RawRecord :=
  { tasks := some [], deletedTasks := some [C2RawTask] }

/-- A version-1 record whose active list holds `C2RawTask`. -/
def C2WRecord : RawRecord :=
  { tasks := some [C2RawTask], version := some 1 }

/-- A simple active task. -/
def C3Task : Task :=
  { id := "a", text := "x", completed := false, createdAt := 0,
    category := Category.today, important := false, dueDate := none }

/-- A state holding just `C3Task`. -/
def C3State : AppState :=
  { tasks := [C3Task], deletedTasks := [], statusFilter := Filter.all, tags := [] }

/-- 13:00 UTC on 1970-01-01, in a UTC+12 timezone: the local calendar
date (1970-01-02) differs from the UTC one (1970-01-01). -/
def C5Clock : Clock := { nowMs := 46800000, tzShiftMs := 43200000 }

/-- A task due on the *local* current date of `C5Clock`. -/
def C5Task : Task :=
  { id := "t", text := "x", completed := false, createdAt := 46800000,
    category := Category.today, important := false,
    dueDate := some "1970-01-02" }

/-- A `today`-filtered state holding just `C5Task`. -/
def C5State : AppState :=
  { tasks := [C5Task], deletedTasks := [], statusFilter := Filter.today, tags := [] }

/-- A clock at the epoch, UTC timezone. -/
def C5WClock : Clock := { nowMs := 0, tzShiftMs := 0 }

/-- A task due on the UTC current date of `C5WClock`. -/
def C5WTask : Task :=
  { id := "w", text := "y", completed := false, createdAt := 0,
    category := Category.today, important := false,
    dueDate := some "1970-01-01" }

/-- A `today`-filtered state holding just `C5WTask`. -/
def C5WState : AppState :=
  { tasks := [C5WTask], deletedTasks := [], statusFilter := Filter.today, tags := [] }

/-- Task A of the spec's sort example. -/
def C6A : Task :=
  { id := "a", text := "A", completed := false, createdAt := 100,
    category := Category.today, important := true, dueDate := none }

/-- Task B of the spec's sort example. -/
def C6B : Task :=
  { id := "b", text := "B", completed := false, createdAt := 200,
    category := Category.today, important := false, dueDate := none }

/-- Task C of the spec's sort example. -/
def C6C : Task :=
  { id := "c", text := "C", completed := true, createdAt := 300,
    category := Category.today, important := true, dueDate := none }

/-- The sort example's state: A, B, C added in order (prepended), under
`statusFilter = all` and no tags. -/
def C6State : AppState :=
  { tasks := [C6C, C6B, C6A], deletedTasks := [], statusFilter := Filter.all, tags := [] }

/-- An arbitrary clock for the sort example. -/
def C6Clock : Clock := { nowMs := 0, tzShiftMs := 0 }

/-- A completed task. -/
def C7Task : Task :=
  { id := "p", text := "p", completed := true, createdAt := 7,
    category := Category.today, important := false, dueDate := none }

/-- A non-`deleted`-filter state. -/
def C7State : AppState :=
  { tasks := [C7Task], deletedTasks := [], statusFilter := Filter.all, tags := [] }

/-- A `deleted`-filter state with one trashed task. -/
def C7DState : AppState :=
  { tasks := [],
    deletedTasks := [{ C7Task with deletedAt := some 9 }],
    statusFilter := Filter.deleted, tags := [] }

/-- An arbitrary clock for the counts theorems. -/
def C7Clock : Clock := { nowMs := 0, tzShiftMs := 0 }

/-- A trashed task. -/
def C9Task : Task :=
  { id := "q", text := "q", completed := false, createdAt := 1,
    category := Category.today, important := false, dueDate := none,
    deletedAt := some 3 }

/-- A state whose recycle bin holds just `C9Task`. -/
def C9State : AppState :=
  { tasks := [], deletedTasks := [C9Task], statusFilter := Filter.deleted, tags := [] }

/-- A state with one selected tag. -/
def C10State : AppState :=
  { tasks := [], deletedTasks := [], statusFilter := Filter.all,
    tags := [Tag.important] }

/-! ## Theorems -/

/-- C4 counterexample: the claim says the default state's `statusFilter`
is `today`, but loading an absent/unparsable slot yields `statusFilter = all`
(line 102 of `main.ts`). -/
theorem C4_default_filter_cex :
    ¬ (loadFromStorage none).statusFilter = Filter.today := by
  decide

/-- C4 (amended): when the storage slot is absent or its contents are
unparsable, `load` returns the default AppState — `tasks` empty,
`deletedTasks` empty, `statusFilter = all`, `tags` empty, and the current
schema version. -/
theorem C4_load_default :
    loadFromStorage none =
      { tasks := [], deletedTasks := [], statusFilter := Filter.all,
        tags := [], version := some DATA_VERSION } :=
  rfl

/-- C8: for every state and every text whose trimmed value is empty,
`addTask` is a silent no-op — the whole state, in particular `tasks`, is
unchanged. -/
theorem C8_addTask_empty_noop (c : Clock) (newId text : String) (imp : Bool)
    (due : Option String) (s : AppState) (h : jsTrim text = "") :
    addTask c newId text imp due s = s := by
  simp [addTask, h]

/-- Witness for C8 at the whitespace-only text `"   "`. -/
theorem C8_addTask_empty_noop_witness :
    jsTrim "   " = "" ∧
      addTask { nowMs := 0, tzShiftMs := 0 } "id1" "   " false none defaultState
        = defaultState :=
  ⟨by decide,
    C8_addTask_empty_noop { nowMs := 0, tzShiftMs := 0 } "id1" "   " false none
      defaultState (by decide)⟩

/-- C9: purging a task leaves `tasks`, `statusFilter`, `tags` (and the
version) unchanged; its only effect is removing every entry of
`deletedTasks` whose id equals the given id, hence it is a full no-op
when no entry matches. -/
theorem C9_purge_frame (id : String) (s : AppState) :
    (permanentDeleteTask id s).tasks = s.tasks ∧
    (permanentDeleteTask id s).statusFilter = s.statusFilter ∧
    (permanentDeleteTask id s).tags = s.tags ∧
    (permanentDeleteTask id s).version = s.version ∧
    (permanentDeleteTask id s).deletedTasks
      = s.deletedTasks.filter (fun t => t.id != id) ∧
    ((∀ t ∈ s.deletedTasks, t.id ≠ id) → permanentDeleteTask id s = s) := by
  refine ⟨rfl, rfl, rfl, rfl, rfl, fun h => ?_⟩
  have hf : s.deletedTasks.filter (fun t => t.id != id) = s.deletedTasks :=
    List.filter_eq_self.mpr (fun t ht => by simpa using h t ht)
  cases s
  simp only [permanentDeleteTask] at hf ⊢
  rw [hf]

/-- Witness for C9: purging an id absent from the trash is a no-op. -/
theorem C9_purge_frame_witness :
    (∀ t ∈ C9State.deletedTasks, t.id ≠ "zz") ∧
      permanentDeleteTask "zz" C9State = C9State :=
  ⟨by decide, (C9_purge_frame "zz" C9State).2.2.2.2.2 (by decide)⟩

/-- C10: starting from a duplicate-free `tags` list, `toggleTag` keeps it
duplicate-free — appending the tag when absent and removing every
occurrence when present — and no other command touches `tags`. -/
theorem C10_tags_nodup (tag : Tag) (s : AppState) (h : s.tags.Nodup) :
    (toggleTag tag s).tags.Nodup ∧
    (tag ∉ s.tags → (toggleTag tag s).tags = s.tags ++ [tag]) ∧
    (tag ∈ s.tags → (toggleTag tag s).tags = s.tags.filter (fun t => t != tag)) ∧
    (∀ c newId text imp due, (addTask c newId text imp due s).tags = s.tags) ∧
    (∀ id, (toggleTask id s).tags = s.tags) ∧
    (∀ c id, (deleteTask c id s).tags = s.tags) ∧
    (∀ id, (restoreTask id s).tags = s.tags) ∧
    (∀ id, (permanentDeleteTask id s).tags = s.tags) ∧
    (emptyTrash s).tags = s.tags ∧
    (∀ f, (switchStatusFilter f s).tags = s.tags) := by
  refine ⟨?_, ?_, ?_, ?_, ?_, ?_, ?_, fun _ => rfl, rfl, fun _ => rfl⟩
  · by_cases hm : tag ∈ s.tags
    · have ht : toggleTag tag s = { s with tags := s.tags.filter (fun t => t != tag) } := by
        simp [toggleTag, List.contains, hm]
      rw [ht]
      exact h.filter _
    · have ht : toggleTag tag s = { s with tags := s.tags ++ [tag] } := by
        simp [toggleTag, List.contains, hm]
      rw [ht]
      simp [List.nodup_append, h, hm]
  · intro hm
    simp [toggleTag, List.contains, hm]
  · intro hm
    simp [toggleTag, List.contains, hm]
  · intro c newId text imp due
    simp only [addTask]
    split <;> rfl
  · intro id
    rfl
  · intro c id
    simp only [deleteTask]
    cases s.tasks.find? (fun t => t.id == id) <;> rfl
  · intro id
    simp only [restoreTask]
    cases s.deletedTasks.find? (fun t => t.id == id) <;> rfl

/-- Witness for C10: toggling `someday` onto `[important]` appends it. -/
theorem C10_tags_nodup_witness :
    C10State.tags.Nodup ∧
      (toggleTag Tag.someday C10State).tags = C10State.tags ++ [Tag.someday] :=
  ⟨by decide, (C10_tags_nodup Tag.someday C10State (by decide)).2.1 (by decide)⟩


/-! ### The C1 invariant: preservation lemmas -/

theorem toggleFirst_map_id (id : String) (l : List Task) :
    (toggleFirst id l).map Task.id = l.map Task.id := by
  induction l with
  | nil => rfl
  | cons t ts ih =>
    simp only [toggleFirst]
    split <;> simp [ih]

theorem toggleFirst_deletedAt (id : String) (l : List Task)
    (h : ∀ t ∈ l, t.deletedAt = none) :
    ∀ t ∈ toggleFirst id l, t.deletedAt = none := by
  induction l with
  | nil => simp [toggleFirst]
  | cons t ts ih =>
    simp only [toggleFirst]
    split
    · intro x hx
      rcases List.mem_cons.mp hx with h1 | h2
      · subst h1
        exact h t (List.mem_cons_self _ _)
      · exact h x (List.mem_cons_of_mem _ h2)
    · intro x hx
      rcases List.mem_cons.mp hx with h1 | h2
      · subst h1
        exact h x (List.mem_cons_self _ _)
      · exact ih (fun y hy => h y (List.mem_cons_of_mem _ hy)) x h2

theorem inv_init : Inv defaultState := by
  simp [Inv, defaultState]

theorem inv_add (c : Clock) (nid text : String) (imp : Bool) (due : Option String)
    (s : AppState) (hI : Inv s) (hf : idFresh nid s) :
    Inv (addTask c nid text imp due s) := by
  obtain ⟨h1, h2, h3, h4, h5⟩ := hI
  obtain ⟨hf1, hf2⟩ := hf
  unfold addTask
  split
  · exact ⟨h1, h2, h3, h4, h5⟩
  · refine ⟨?_, h2, ?_, ?_, h5⟩
    · simp only [List.map_cons]
      refine List.nodup_cons.mpr ⟨?_, h1⟩
      intro hmem
      obtain ⟨t, ht, hid⟩ := List.mem_map.mp hmem
      exact hf1 t ht hid
    · intro i hi
      simp only [List.map_cons, List.mem_cons] at hi
      rcases hi with hi | hi
      · subst hi
        intro hmem
        obtain ⟨t, ht, hid⟩ := List.mem_map.mp hmem
        exact hf2 t ht hid
      · exact h3 i hi
    · intro t ht
      rcases List.mem_cons.mp ht with h' | h'
      · subst h'
        rfl
      · exact h4 t h'

theorem inv_toggle (id : String) (s : AppState) (hI : Inv s) :
    Inv (toggleTask id s) := by
  obtain ⟨h1, h2, h3, h4, h5⟩ := hI
  unfold toggleTask
  exact ⟨by simpa [toggleFirst_map_id] using h1, h2,
    by simpa [toggleFirst_map_id] using h3,
    toggleFirst_deletedAt id s.tasks h4, h5⟩

theorem inv_delete (c : Clock) (id : String) (s : AppState) (hI : Inv s) :
    Inv (deleteTask c id s) := by
  obtain ⟨h1, h2, h3, h4, h5⟩ := hI
  unfold deleteTask
  cases hfind : s.tasks.find? (fun t => t.id == id) with
  | none => exact ⟨h1, h2, h3, h4, h5⟩
  | some t =>
    have htmem : t ∈ s.tasks := List.mem_of_find?_eq_some hfind
    have htid : t.id = id := by
      have := List.find?_some (p := fun x => x.id == id) (a := t) hfind
      simpa using this
    have hidin : id ∈ s.tasks.map Task.id := List.mem_map.mpr ⟨t, htmem, htid⟩
    have hidnotdel : id ∉ s.deletedTasks.map Task.id := h3 id hidin
    have hsub : List.Sublist ((s.tasks.filter (fun x => x.id != id)).map Task.id)
        (s.tasks.map Task.id) := (List.filter_sublist _).map _
    refine ⟨hsub.nodup h1, ?_, ?_, ?_, ?_⟩
    · simp only [List.map_cons]
      exact List.nodup_cons.mpr ⟨by simpa [htid] using hidnotdel, h2⟩
    · intro i hi
      obtain ⟨x, hx, hxid⟩ := List.mem_map.mp hi
      have hxmem : x ∈ s.tasks := (List.mem_filter.mp hx).1
      have hxne : x.id ≠ id := by simpa using (List.mem_filter.mp hx).2
      simp only [List.map_cons, List.mem_cons]
      rintro (hc | hc)
      · exact hxne (hxid.trans (hc.trans htid))
      · exact h3 i (List.mem_map.mpr ⟨x, hxmem, hxid⟩) hc
    · intro x hx
      exact h4 x (List.mem_filter.mp hx).1
    · intro x hx
      rcases List.mem_cons.mp hx with h' | h'
      · subst h'
        simp
      · exact h5 x h'

theorem inv_restore (id : String) (s : AppState) (hI : Inv s) :
    Inv (restoreTask id s) := by
  obtain ⟨h1, h2, h3, h4, h5⟩ := hI
  unfold restoreTask
  cases hfind : s.deletedTasks.find? (fun t => t.id == id) with
  | none => exact ⟨h1, h2, h3, h4, h5⟩
  | some t =>
    have htmem : t ∈ s.deletedTasks := List.mem_of_find?_eq_some hfind
    have htid : t.id = id := by
      have := List.find?_some (p := fun x => x.id == id) (a := t) hfind
      simpa using this
    have hidin : id ∈ s.deletedTasks.map Task.id := List.mem_map.mpr ⟨t, htmem, htid⟩
    have hidnottasks : id ∉ s.tasks.map Task.id := fun hin => h3 id hin hidin
    have hsub : List.Sublist ((s.deletedTasks.filter (fun x => x.id != id)).map Task.id)
        (s.deletedTasks.map Task.id) := (List.filter_sublist _).map _
    refine ⟨?_, hsub.nodup h2, ?_, ?_, ?_⟩
    · simp only [List.map_cons]
      exact List.nodup_cons.mpr ⟨by simpa [htid] using hidnottasks, h1⟩
    · intro i hi
      simp only [List.map_cons, List.mem_cons] at hi
      intro hc
      obtain ⟨x, hx, hxid⟩ := List.mem_map.mp hc
      have hxmem : x ∈ s.deletedTasks := (List.mem_filter.mp hx).1
      have hxne : x.id ≠ id := by simpa using (List.mem_filter.mp hx).2
      rcases hi with hi | hi
      · exact hxne (hxid.trans (hi.trans htid))
      · exact h3 i hi (List.mem_map.mpr ⟨x, hxmem, hxid⟩)
    · intro x hx
      rcases List.mem_cons.mp hx with h' | h'
      · subst h'
        rfl
      · exact h4 x h'
    · intro x hx
      exact h5 x (List.mem_filter.mp hx).1

theorem inv_purge (id : String) (s : AppState) (hI : Inv s) :
    Inv (permanentDeleteTask id s) := by
  obtain ⟨h1, h2, h3, h4, h5⟩ := hI
  have hsub : List.Sublist ((s.deletedTasks.filter (fun x => x.id != id)).map Task.id)
      (s.deletedTasks.map Task.id) := (List.filter_sublist _).map _
  refine ⟨h1, hsub.nodup h2, ?_, h4, ?_⟩
  · intro i hi
    exact fun hc => h3 i hi (hsub.subset hc)
  · intro x hx
    exact h5 x (List.mem_filter.mp hx).1

theorem inv_empty (s : AppState) (hI : Inv s) : Inv (emptyTrash s) := by
  obtain ⟨h1, h2, h3, h4, h5⟩ := hI
  exact ⟨h1, List.nodup_nil, by simp [emptyTrash], h4, by simp [emptyTrash]⟩

theorem reachable_inv {s : AppState} (h : Reachable s) : Inv s := by
  induction h with
  | init => exact inv_init
  | add c nid text imp due hr hf ih => exact inv_add c nid text imp due _ ih hf
  | toggle id hr ih => exact inv_toggle id _ ih
  | del c id hr ih => exact inv_delete c id _ ih
  | restore id hr ih => exact inv_restore id _ ih
  | purge id hr ih => exact inv_purge id _ ih
  | empty hr ih => exact inv_empty _ ih


/-- C1: after any sequence of commands from the default initial state,
no task id occurs in both `tasks` and `deletedTasks`, every task in
`tasks` has `deletedAt` absent, and every task in `deletedTasks` has
`deletedAt` present. -/
theorem C1_disjoint_invariant (s : AppState) (h : Reachable s) :
    (∀ id, ¬((∃ t ∈ s.tasks, t.id = id) ∧ (∃ t ∈ s.deletedTasks, t.id = id))) ∧
    (∀ t ∈ s.tasks, t.deletedAt = none) ∧
    (∀ t ∈ s.deletedTasks, t.deletedAt ≠ none) := by
  obtain ⟨h1, h2, h3, h4, h5⟩ := reachable_inv h
  refine ⟨?_, h4, h5⟩
  rintro id ⟨⟨t1, ht1, hid1⟩, ⟨t2, ht2, hid2⟩⟩
  exact h3 id (List.mem_map.mpr ⟨t1, ht1, hid1⟩) (List.mem_map.mpr ⟨t2, ht2, hid2⟩)

/-- Witness for C1 at the reachable state add-then-delete. -/
theorem C1_disjoint_invariant_witness :
    (∀ id, ¬((∃ t ∈ C1WState.tasks, t.id = id) ∧ (∃ t ∈ C1WState.deletedTasks, t.id = id))) ∧
    (∀ t ∈ C1WState.tasks, t.deletedAt = none) ∧
    (∀ t ∈ C1WState.deletedTasks, t.deletedAt ≠ none) :=
  C1_disjoint_invariant C1WState
    (Reachable.del _ _ (Reachable.add _ _ _ _ _ Reachable.init
      ⟨by simp [defaultState], by simp [defaultState]⟩))

/-- `toISODate` never returns the empty string (it always contains the
two dashes of `YYYY-MM-DD`). -/
theorem toISODate_ne_empty (ms : Int) : toISODate ms ≠ "" := by
  intro hcon
  have hlen := congrArg String.length hcon
  have hdash : ("-" : String).length = 1 := rfl
  simp only [toISODate, String.length_append, hdash] at hlen
  simp at hlen

/-- After the v1→v2 migration no task's due date equals the UTC calendar
date of its creation instant. -/
theorem migrateTask_dueDate (u : Task) :
    (migrateTask u).dueDate ≠ some (toISODate (migrateTask u).createdAt) := by
  unfold migrateTask
  cases hd : u.dueDate with
  | none => simp [jsTruthyStr, hd]
  | some d =>
    by_cases he : d = ""
    · subst he
      simp [jsTruthyStr, hd]
      intro hcon
      exact toISODate_ne_empty _ hcon.symm
    · by_cases heq : d = toISODate u.createdAt
      · simp [jsTruthyStr, he, heq, toISODate_ne_empty u.createdAt]
      · simp [jsTruthyStr, he, heq, hd]

/-- C2 counterexample: the claim says the v1→v2 migration also clears
matching due dates of tasks in `deletedTasks`, but loading the legacy
record `C2Record` — whose trashed task is due exactly on the UTC date of
its creation — leaves that due date in place (`main.ts` lines 58–64 only
re-default `deletedTasks`; the migration at lines 45–56 runs on `tasks`
alone). -/
theorem C2_deleted_not_migrated_cex :
    jsVersion C2Record < 2 ∧
    C2RawTask.dueDate = some (toISODate C2RawTask.createdAt) ∧
    (loadFromStorage (some C2Record)).deletedTasks.map Task.dueDate
      = [some "1970-01-01"] := by
  decide

/-- C2 (amended): for a record whose version is absent or below 2, load
applies the v1→v2 migration to every task in `tasks` (afterwards no
active task's due date equals its creation date), while tasks in
`deletedTasks` are only field-defaulted, not migrated; the returned state
is stamped with the current schema version 2, and re-persisting it
changes nothing. -/
theorem C2_migration (r : RawRecord) (h : jsVersion r < 2) :
    (loadFromStorage (some r)).tasks
      = (r.tasks.getD []).map (fun t => migrateTask (normalizeTask t)) ∧
    (∀ t ∈ (loadFromStorage (some r)).tasks,
        t.dueDate ≠ some (toISODate t.createdAt)) ∧
    (loadFromStorage (some r)).deletedTasks
      = (r.deletedTasks.getD []).map normalizeTask ∧
    (loadFromStorage (some r)).version = some DATA_VERSION ∧
    saveToStorage (loadFromStorage (some r)) = loadFromStorage (some r) := by
  have htasks : (loadFromStorage (some r)).tasks
      = (r.tasks.getD []).map (fun t => migrateTask (normalizeTask t)) := by
    cases hraw : r.tasks <;>
      simp [loadFromStorage, h, hraw, List.map_map, Function.comp]
  refine ⟨htasks, ?_, ?_, rfl, rfl⟩
  · intro t htm
    rw [htasks] at htm
    obtain ⟨raw, _, hmapeq⟩ := List.mem_map.mp htm
    subst hmapeq
    exact migrateTask_dueDate _
  · cases hraw : r.deletedTasks <;> simp [loadFromStorage, hraw]

/-- Witness for C2 on the version-1 record `C2WRecord`: the due date that
equals its creation date is cleared and the state is stamped version 2. -/
theorem C2_migration_witness :
    jsVersion C2WRecord < 2 ∧
    (loadFromStorage (some C2WRecord)).tasks
      = (C2WRecord.tasks.getD []).map (fun t => migrateTask (normalizeTask t)) ∧
    (loadFromStorage (some C2WRecord)).version = some DATA_VERSION :=
  ⟨by decide, (C2_migration C2WRecord (by decide)).1,
    (C2_migration C2WRecord (by decide)).2.2.2.1⟩

/-- C3: deleting then restoring an active task (the first task whose id
matches, i.e. the one `tasks.find` picks) puts the very same task — all
fields intact and `deletedAt` still absent — back at the front of
`tasks`, above the remaining tasks. -/
theorem C3_delete_restore_roundtrip (c : Clock) (s : AppState) (id : String)
    (t : Task) (hfind : s.tasks.find? (fun x => x.id == id) = some t)
    (hdel : t.deletedAt = none) :
    (restoreTask id (deleteTask c id s)).tasks
      = t :: s.tasks.filter (fun x => x.id != id) ∧
    t ∈ (restoreTask id (deleteTask c id s)).tasks := by
  have hp : (t.id == id) = true := by
    have := List.find?_some (p := fun x => x.id == id) (a := t) hfind
    simpa using this
  have hmain : (restoreTask id (deleteTask c id s)).tasks
      = t :: s.tasks.filter (fun x => x.id != id) := by
    simp only [deleteTask, hfind, restoreTask, List.find?_cons, hp, cond_true]
    rcases t with ⟨tid, ttext, tcomp, tca, tcat, timp, tdue, tdel⟩
    simp only at hdel
    subst hdel
    rfl
  exact ⟨hmain, by rw [hmain]; exact List.mem_cons_self _ _⟩

/-- Witness for C3 on a one-task state. -/
theorem C3_delete_restore_roundtrip_witness :
    C3State.tasks.find? (fun x => x.id == "a") = some C3Task ∧
    (restoreTask "a" (deleteTask { nowMs := 5, tzShiftMs := 0 } "a" C3State)).tasks
      = C3Task :: C3State.tasks.filter (fun x => x.id != "a") :=
  ⟨by decide,
    (C3_delete_restore_roundtrip { nowMs := 5, tzShiftMs := 0 } C3State "a" C3Task
      (by decide) (by decide)).1⟩

/-- C5 counterexample: the claim says both `today` comparisons use the
local clock's current date, but the code compares `dueDate` against the
*UTC* date string from `toISOString`.  Under `C5Clock` (13:00 UTC on
1970-01-01 in a UTC+12 zone) the task `C5Task` is due on the local
current date (1970-01-02), so the claim includes it, yet the visible list
under the `today` filter excludes it. -/
theorem C5_today_local_cex :
    C5Task.dueDate = some (toISODate (C5Clock.nowMs + C5Clock.tzShiftMs)) ∧
    todayPredSpec C5Clock C5Task = true ∧
    C5Task ∉ visibleTasks C5Clock C5State := by
  decide

/-- C5 (amended): under `statusFilter = today` (and no tag filter) a task
is visible iff it is active and either its `dueDate` equals the *UTC*
calendar date of the current instant, or its `dueDate` is absent and its
`createdAt` falls on today's *local* calendar date. -/
theorem C5_today_members (c : Clock) (s : AppState) (t : Task)
    (hf : s.statusFilter = Filter.today) (ht : s.tags = []) :
    t ∈ visibleTasks c s ↔ t ∈ s.tasks ∧ todaySpecAmended c t := by
  unfold visibleTasks renderFiltered
  rw [hf, ht]
  simp [List.mem_insertionSort, List.mem_filter, statusPred, todayPred,
    todaySpecAmended]

/-- Witness for C5: a task due on the UTC current date is visible under
the `today` filter. -/
theorem C5_today_members_witness :
    C5WTask ∈ visibleTasks C5WClock C5WState :=
  (C5_today_members C5WClock C5WState C5WTask rfl rfl).mpr
    ⟨by decide, Or.inl (by decide)⟩

/-- C6: the visible-list sort orders tasks by the comparator — incomplete
before completed, then important before non-important, then `createdAt`
descending (`taskOrder`) — and on the spec's example A, B, C under
`statusFilter = all` and no tags the result is exactly [A, B, C]. -/
theorem C6_sort_order :
    (∀ (c : Clock) (s : AppState), (visibleTasks c s).Pairwise taskOrder) ∧
    visibleTasks C6Clock C6State = [C6A, C6B, C6C] := by
  refine ⟨fun c s => List.sorted_insertionSort taskOrder _, by decide⟩

/-- C7: for every state with `statusFilter ≠ deleted`, the counts query
filters with exactly the same status-and-tag logic as the visible-list
query (before its final sort); under `statusFilter = deleted` the total
equals the trash size. -/
theorem C7_counts_refinement :
    (∀ (c : Clock) (s : AppState), s.statusFilter ≠ Filter.deleted →
        statsFiltered c s = renderFiltered c s ∧
        statsTotal c s = (renderFiltered c s).length ∧
        statsCompleted c s
          = ((renderFiltered c s).filter (fun t => t.completed)).length ∧
        statsActive c s
          = (renderFiltered c s).length
              - ((renderFiltered c s).filter (fun t => t.completed)).length) ∧
    (∀ (c : Clock) (s : AppState), s.statusFilter = Filter.deleted →
        statsTotal c s = s.deletedTasks.length) := by
  constructor
  · intro c s h
    refine ⟨rfl, ?_, rfl, ?_⟩
    · simp only [statsTotal, if_neg h]
      rfl
    · simp only [statsActive, statsTotal, if_neg h]
      rfl
  · intro c s h
    simp [statsTotal, h]

/-- Witness for C7: both branches at concrete states. -/
theorem C7_counts_refinement_witness :
    (C7State.statusFilter ≠ Filter.deleted ∧
      statsTotal C7Clock C7State = (renderFiltered C7Clock C7State).length) ∧
    (C7DState.statusFilter = Filter.deleted ∧
      statsTotal C7Clock C7DState = C7DState.deletedTasks.length) :=
  ⟨⟨by decide, (C7_counts_refinement.1 C7Clock C7State (by decide)).2.1⟩,
    ⟨rfl, C7_counts_refinement.2 C7Clock C7DState rfl⟩⟩

end ZenTasks
